import Mathlib

/-!
Verification of the real-time collaboration coordination engine of the
sermon-deck repository (src/packages/api/src/services/collaboration.ts).

The TypeScript service is shallowly embedded: the Redis session store is an
association list keyed by room id, the Prisma block table is an association
list from block id to content, socket emissions are recorded as an explicit
list tagged with their target (the originating socket, the room excluding the
originator, or the whole room), and every Socket.IO event handler becomes a
pure function from the pre-state and the inbound payload to the post-state
and the emissions.  Timestamps (Date.now values) are integers in
milliseconds.  JavaScript string splicing via String.prototype.substring is
modelled with its exact clamping semantics.
-/

set_option autoImplicit false

namespace Collab

/-! ## Association lists (the JS object / Redis key-value maps) -/

/-- Lookup in an association list keyed by strings; models `obj[key]` /
`redis.get(key)` returning `undefined` / `null` as `none`. -/
def lookupKey {α : Type} (l : List (String × α)) (k : String) : Option α :=
  (l.find? (fun kv => kv.1 == k)).map (fun kv => kv.2)

/-- Set a key, replacing an existing binding in place (JS object insertion
order is preserved) or appending a new one; models `obj[key] = v` /
`redis.set(key, v)`. -/
def setKey {α : Type} (l : List (String × α)) (k : String) (v : α) : List (String × α) :=
  match l with
  | [] => [(k, v)]
  | kv :: rest => if kv.1 = k then (k, v) :: rest else kv :: setKey rest k v

/-- Delete a key; models `delete obj[key]` / `redis.del(key)`. -/
def delKey {α : Type} (l : List (String × α)) (k : String) : List (String × α) :=
  l.filter (fun kv => !(kv.1 == k))

/-! ## Constants (collaboration.ts lines 76-83) -/

/-- Lock TTL in milliseconds (`LOCK_TIMEOUT = 30000`). -/
def LOCK_TIMEOUT : Int := 30000

/-- Bound on the per-session operation log (`OPERATIONS_MAX_LENGTH = 100`). -/
def OPERATIONS_MAX_LENGTH : Nat := 100

/-! ## Data model (collaboration.ts lines 30-70) -/

/-- The authenticated principal attached to a socket (`SocketAuth`). -/
structure SocketAuth where
  userId : String
  email : String
deriving DecidableEq

/-- A cursor position (`CursorPosition`). -/
structure CursorPosition where
  blockId : String
  position : Int
deriving DecidableEq

/-- The kind of a block edit (`BlockEditOperation.type`). -/
inductive OpType
  | insert
  | delete
  | replace
deriving DecidableEq

/-- An inbound edit operation as received in the `block:edit` payload
(`Omit<BlockEditOperation, 'userId' | 'timestamp'>`); the optional fields
mirror `position?: number; length?: number; text?: string`. -/
structure EditOp where
  type : OpType
  position : Option Int
  length : Option Int
  text : Option String
deriving DecidableEq

/-- An entry of the session operation log (a full `BlockEditOperation`). -/
structure LoggedOp where
  op : EditOp
  blockId : String
  userId : String
  timestamp : Int
deriving DecidableEq

/-- One participant of a session (`CollaborationUser`). -/
structure CollaborationUser where
  id : String
  name : String
  avatarUrl : Option String
  cursor : Option CursorPosition
  lastActivity : Int
deriving DecidableEq

/-- A block lock (`SessionMetadata.locks` values). -/
structure Lock where
  userId : String
  expires : Int
deriving DecidableEq

/-- A session record as stored in Redis (`SessionMetadata`). -/
structure SessionMetadata where
  entityType : String
  entityId : String
  lastActivity : Int
  activeUsers : List (String × CollaborationUser)
  operations : List LoggedOp
  locks : List (String × Lock)
deriving DecidableEq

/-- The cross-process shared state held in Redis: the session records
(keyed by room id) and the per-user set of joined rooms
(`sermonflow:collab:user:` keys, read with `smembers`). -/
structure RedisState where
  sessions : List (String × SessionMetadata)
  userSessions : List (String × List String)
deriving DecidableEq

/-- A version history row created by `prisma.sermonBlockVersion.create`. -/
structure BlockVersion where
  blockId : String
  content : String
  createdById : String
deriving DecidableEq

/-- The room id `` `${entityType}:${entityId}` ``. -/
def roomIdOf (entityType entityId : String) : String :=
  entityType ++ ":" ++ entityId

/-! ## Socket emissions -/

/-- Where an emission goes: `socket.emit` (the originating connection only),
`socket.to(roomId).emit` (every room member except the originator), or
`io.to(roomId).emit` (every room member). -/
inductive EmitTarget
  | toSelf
  | toOthers
  | toRoom
deriving DecidableEq

/-- The outbound events the modelled handlers produce. -/
inductive OutEvent
  | errorPermissionDenied
  | errorUserNotFound
  | errorBlockLocked (blockId : String) (lockedBy : String)
  | errorEditFailed (blockId : String)
  | sessionSnapshot (roomId : String) (activeUsers : List CollaborationUser)
  | userJoined (user : CollaborationUser)
  | userLeft (userId : String)
  | cursorMoved (userId : String) (position : CursorPosition)
  | blockUpdated (blockId : String) (content : String)
deriving DecidableEq

/-- A recorded emission. -/
structure Emission where
  target : EmitTarget
  event : OutEvent
deriving DecidableEq

/-- Whether an event is the `BLOCK_LOCKED` error. -/
def isBlockLockedError : OutEvent → Bool
  | .errorBlockLocked _ _ => true
  | _ => false

/-- Whether an event is the `USER_JOINED` collaboration broadcast. -/
def isUserJoined : OutEvent → Bool
  | .userJoined _ => true
  | _ => false

/-- Whether an event is the `CURSOR_MOVED` collaboration broadcast. -/
def isCursorMoved : OutEvent → Bool
  | .cursorMoved _ _ => true
  | _ => false

/-- Delivery of one emission to room member `m` (`members` is the roster of
the Socket.IO room, `sender` the user on the originating socket):
`socket.emit` reaches only the sender, `socket.to(room)` reaches every member
except the sender, `io.to(room)` reaches every member. -/
def deliveredTo (sender : String) (members : List String) (m : String) (e : Emission) : Prop :=
  match e.target with
  | .toSelf => m = sender
  | .toOthers => m ∈ members ∧ m ≠ sender
  | .toRoom => m ∈ members

/-! ## JavaScript string splicing (the `block:edit` switch, lines 524-549)

`String.prototype.substring(a, b)` clamps both indices into `[0, length]`
and swaps them when `a > b`; the one-argument form runs to the end. -/

/-- `s.substring(a, b)` with exact JavaScript clamping semantics. -/
def jsSubstring (s : String) (a b : Int) : String :=
  let n : Int := (s.length : Int)
  let a' : Nat := (min (max a 0) n).toNat
  let b' : Nat := (min (max b 0) n).toNat
  String.mk ((s.data.drop (min a' b')).take (max a' b' - min a' b'))

/-- `s.substring(a)` (to the end of the string). -/
def jsSubstringFrom (s : String) (a : Int) : String :=
  jsSubstring s a (s.length : Int)

/-- Applying one edit operation to block content, exactly as the `switch` in
the `block:edit` handler computes `newContent`: an `insert` requires
`position !== undefined` and truthy `text` (so the empty string is a no-op),
a `delete` requires `position !== undefined` and truthy `length` (so zero is
a no-op), a `replace` requires `text !== undefined`; otherwise the content is
left unchanged. -/
def applyEditOp (op : EditOp) (c : String) : String :=
  match op.type with
  | .insert =>
    match op.position, op.text with
    | some p, some t =>
      if t = "" then c else jsSubstring c 0 p ++ t ++ jsSubstringFrom c p
    | _, _ => c
  | .delete =>
    match op.position, op.length with
    | some p, some n =>
      if n = 0 then c else jsSubstring c 0 p ++ jsSubstringFrom c (p + n)
    | _, _ => c
  | .replace =>
    match op.text with
    | some t => t
    | none => c

/-- The clamp of an insert position into `[0, length]`. -/
def clampPos (p : Int) (c : String) : Nat :=
  (min (max p 0) (c.length : Int)).toNat

/-- Splicing `t` into `c` at character index `i` (the specification-side
description of an in-range insert). -/
def spliceAt (c t : String) (i : Nat) : String :=
  String.mk (c.data.take i ++ t.data ++ c.data.drop i)

/-! ## The block:edit handler (collaboration.ts lines 446-640) -/

/-- The lock check of lines 465-469: the holder of a blocking lock on
`blockId`, i.e. a lock entry whose `userId` differs from the caller and whose
`expires` lies strictly in the future (`expires > Date.now()`); `none` when
the block is unlocked, self-locked, or the lock has expired. -/
def lockHolderBlocking (session : SessionMetadata) (blockId userId : String)
    (now : Int) : Option String :=
  match lookupKey session.locks blockId with
  | some lk => if lk.userId ≠ userId ∧ now < lk.expires then some lk.userId else none
  | none => none

/-- The blocking holder seen through the Redis guard of lines 457-461: with
no Redis client or no session record there is no lock check at all. -/
def blockedHolder (redis : Option RedisState) (roomId blockId userId : String)
    (now : Int) : Option String :=
  match redis with
  | none => none
  | some r =>
    match lookupKey r.sessions roomId with
    | none => none
    | some session => lockHolderBlocking session blockId userId now

/-- Lines 482-509: install (or refresh) the caller's lock with
`expires = Date.now() + LOCK_TIMEOUT`, append the full operation to the
session log, trim the log to its last `OPERATIONS_MAX_LENGTH` entries
(`slice(-OPERATIONS_MAX_LENGTH)`), and write the session back.  With no
Redis client or no session record nothing is installed. -/
def installEditLock (now : Int) (userId : String) (redis : Option RedisState)
    (roomId blockId : String) (op : EditOp) : Option RedisState :=
  match redis with
  | none => none
  | some r =>
    match lookupKey r.sessions roomId with
    | none => some r
    | some session =>
      let logged : LoggedOp := { op := op, blockId := blockId, userId := userId, timestamp := now }
      let ops := session.operations ++ [logged]
      let s' : SessionMetadata := { session with
        locks := setKey session.locks blockId { userId := userId, expires := now + LOCK_TIMEOUT },
        operations := if ops.length > OPERATIONS_MAX_LENGTH
          then ops.drop (ops.length - OPERATIONS_MAX_LENGTH) else ops }
      some { r with sessions := setKey r.sessions roomId s' }

/-- Lines 613-631 (the catch branch): release the lock on `blockId` only if
it is currently held by the caller (`session.locks[blockId]?.userId ===
auth.userId`), then write the session back. -/
def releaseLockIfHeld (userId : String) (redis : Option RedisState)
    (roomId blockId : String) : Option RedisState :=
  match redis with
  | none => none
  | some r =>
    match lookupKey r.sessions roomId with
    | none => some r
    | some session =>
      match lookupKey session.locks blockId with
      | some lk =>
        if lk.userId = userId then
          let s' : SessionMetadata := { session with locks := delKey session.locks blockId }
          some { r with sessions := setKey r.sessions roomId s' }
        else some r
      | none => some r

/-- The inbound `block:edit` payload. -/
structure EditInput where
  entityType : String
  entityId : String
  blockId : String
  operation : EditOp
deriving DecidableEq

/-- The full post-state of one `block:edit` handler run. -/
structure EditResult where
  redis : Option RedisState
  blocks : List (String × String)
  versions : List BlockVersion
  emissions : List Emission
deriving DecidableEq

/-- The `block:edit` handler (lines 446-640).  `blocks` is the Prisma
`sermonBlock` table restricted to contents, `updateThrows` models
`prisma.sermonBlock.update` (or the version insert) throwing.  Control flow:
if Redis is available and a session record exists and another user holds an
unexpired lock, emit `BLOCK_LOCKED` to the caller and stop; otherwise
install/refresh the caller's lock and log the operation; then load the
block — a missing block or a throwing update runs the catch branch, which
emits `EDIT_ERROR` to the caller only and releases the caller's lock; on
success the new content is persisted, a version row is appended and
`BLOCK_UPDATED` is broadcast to the room. -/
def handleBlockEdit (now : Int) (auth : SocketAuth) (redis : Option RedisState)
    (blocks : List (String × String)) (versions : List BlockVersion)
    (updateThrows : Bool) (input : EditInput) : EditResult :=
  let roomId := roomIdOf input.entityType input.entityId
  match blockedHolder redis roomId input.blockId auth.userId now with
  | some heldBy =>
    { redis := redis, blocks := blocks, versions := versions,
      emissions := [{ target := .toSelf, event := .errorBlockLocked input.blockId heldBy }] }
  | none =>
    let redis1 := installEditLock now auth.userId redis roomId input.blockId input.operation
    match lookupKey blocks input.blockId with
    | none =>
      { redis := releaseLockIfHeld auth.userId redis1 roomId input.blockId,
        blocks := blocks, versions := versions,
        emissions := [{ target := .toSelf, event := .errorEditFailed input.blockId }] }
    | some content =>
      if updateThrows then
        { redis := releaseLockIfHeld auth.userId redis1 roomId input.blockId,
          blocks := blocks, versions := versions,
          emissions := [{ target := .toSelf, event := .errorEditFailed input.blockId }] }
      else
        let newContent := applyEditOp input.operation content
        let version : BlockVersion :=
          { blockId := input.blockId, content := newContent, createdById := auth.userId }
        { redis := redis1,
          blocks := setKey blocks input.blockId newContent,
          versions := versions ++ [version],
          emissions := [{ target := .toRoom, event := .blockUpdated input.blockId newContent }] }

/-! ## The join handler (collaboration.ts lines 164-318) -/

/-- The user profile columns selected by the join handler. -/
structure UserProfile where
  firstName : String
  lastName : String
  avatarUrl : Option String
deriving DecidableEq

/-- The inbound `join` payload. -/
structure JoinInput where
  entityType : String
  entityId : String
  displayName : Option String
deriving DecidableEq

/-- The post-state of a presence handler run (join / leave / cursor /
disconnect): the new Redis state and the emissions. -/
structure PresenceResult where
  redis : Option RedisState
  emissions : List Emission
deriving DecidableEq

/-- The `CollaborationUser` object built by the join handler (lines
210-215): the display name falls back to first and last name. -/
def joinCollaborationUser (now : Int) (auth : SocketAuth) (u : UserProfile)
    (displayName : Option String) : CollaborationUser :=
  { id := auth.userId,
    name := displayName.getD (u.firstName ++ " " ++ u.lastName),
    avatarUrl := u.avatarUrl, cursor := none, lastActivity := now }

/-- The Redis update of the join handler (lines 217-263): upsert the
participant into the session record (creating the record if absent) and add
the room to the user's session set (`sadd`). -/
def joinUpdateRedis (now : Int) (auth : SocketAuth) (redis : Option RedisState)
    (roomId : String) (input : JoinInput) (cu : CollaborationUser) : Option RedisState :=
  match redis with
  | none => none
  | some r =>
    let session : SessionMetadata :=
      match lookupKey r.sessions roomId with
      | some s =>
        { s with
          activeUsers := setKey s.activeUsers auth.userId cu,
          lastActivity := now }
      | none =>
        { entityType := input.entityType, entityId := input.entityId,
          lastActivity := now, activeUsers := [(auth.userId, cu)],
          operations := [], locks := [] }
    let cur := (lookupKey r.userSessions auth.userId).getD []
    some { sessions := setKey r.sessions roomId session,
           userSessions := setKey r.userSessions auth.userId
             (if cur.contains roomId then cur else cur ++ [roomId]) }

/-- The snapshot emitted back to the joiner (lines 276-304): the re-read
record's participants when Redis is available and the record exists, nothing
when the re-read misses, a minimal snapshot when Redis is unavailable. -/
def joinSnapshotEmissions (redis' : Option RedisState) (roomId : String)
    (cu : CollaborationUser) : List Emission :=
  match redis' with
  | some r' =>
    match lookupKey r'.sessions roomId with
    | some s =>
      [{ target := .toSelf,
         event := .sessionSnapshot roomId (s.activeUsers.map (fun kv => kv.2)) }]
    | none => []
  | none => [{ target := .toSelf, event := .sessionSnapshot roomId [cu] }]

/-- The `join` handler.  `hasAccess` is the result of the awaited
`checkCollaborationAccess` call, `users` the Prisma `user` table.  On access
failure or a missing user row an error is emitted to the caller only.
Otherwise the participant is upserted into the session record (created if
absent), the room id is added to the user's session set, `USER_JOINED` is
broadcast to the room excluding the originator (`socket.to(roomId)`), and a
session snapshot is emitted back to the joiner (from the re-read record when
Redis is available and the record exists, else a minimal one without
Redis). -/
def handleJoin (now : Int) (auth : SocketAuth) (hasAccess : Bool)
    (users : List (String × UserProfile)) (redis : Option RedisState)
    (input : JoinInput) : PresenceResult :=
  let roomId := roomIdOf input.entityType input.entityId
  if !hasAccess then
    { redis := redis, emissions := [{ target := .toSelf, event := .errorPermissionDenied }] }
  else
    match lookupKey users auth.userId with
    | none =>
      { redis := redis, emissions := [{ target := .toSelf, event := .errorUserNotFound }] }
    | some u =>
      let collaborationUser := joinCollaborationUser now auth u input.displayName
      let redis' := joinUpdateRedis now auth redis roomId input collaborationUser
      let joinEmission : Emission := { target := .toOthers, event := .userJoined collaborationUser }
      { redis := redis',
        emissions := joinEmission :: joinSnapshotEmissions redis' roomId collaborationUser }

/-! ## The leave, cursor and disconnect handlers -/

/-- The inbound `leave` payload (also the channel part of `cursor`). -/
structure ChannelInput where
  entityType : String
  entityId : String
deriving DecidableEq

/-- Remove a user from a session record: drop the participant entry and every
lock held by the user (leave handler lines 338-347, disconnect handler lines
988-997). -/
def removeUserFromSession (userId : String) (s : SessionMetadata) : SessionMetadata :=
  { s with activeUsers := delKey s.activeUsers userId,
           locks := s.locks.filter (fun kv => !(kv.2.userId == userId)) }

/-- The `leave` handler (lines 321-390).  When Redis holds a session record
for the room the user and the user's locks are removed; if other participants
remain the record is written back, otherwise it is deleted
(`redis.del(sessionKey)`), and the room is removed from the user's session
set.  `USER_LEFT` is then broadcast to the whole room (`io.to(roomId)`). -/
def handleLeave (auth : SocketAuth) (redis : Option RedisState)
    (input : ChannelInput) : PresenceResult :=
  let roomId := roomIdOf input.entityType input.entityId
  let redis' : Option RedisState :=
    match redis with
    | none => none
    | some r =>
      match lookupKey r.sessions roomId with
      | none => some r
      | some session =>
        let s' := removeUserFromSession auth.userId session
        let sessions' := if s'.activeUsers.length > 0
          then setKey r.sessions roomId s' else delKey r.sessions roomId
        let userSessions' :=
          match lookupKey r.userSessions auth.userId with
          | some rooms => setKey r.userSessions auth.userId
              (rooms.filter (fun x => !(x == roomId)))
          | none => r.userSessions
        some { sessions := sessions', userSessions := userSessions' }
  { redis := redis',
    emissions := [{ target := .toRoom, event := .userLeft auth.userId }] }

/-- The inbound `cursor` payload. -/
structure CursorInput where
  entityType : String
  entityId : String
  position : CursorPosition
deriving DecidableEq

/-- The `cursor` handler (lines 393-443): update the user's cursor and last
activity in the session record when Redis, the record and the participant
entry all exist, then broadcast `CURSOR_MOVED` to the room excluding the
originator (`socket.to(roomId)`). -/
def handleCursor (now : Int) (auth : SocketAuth) (redis : Option RedisState)
    (input : CursorInput) : PresenceResult :=
  let roomId := roomIdOf input.entityType input.entityId
  let redis' : Option RedisState :=
    match redis with
    | none => none
    | some r =>
      match lookupKey r.sessions roomId with
      | none => some r
      | some s =>
        match lookupKey s.activeUsers auth.userId with
        | none => some r
        | some u =>
          let u' : CollaborationUser := { u with cursor := some input.position, lastActivity := now }
          let s' : SessionMetadata := { s with activeUsers := setKey s.activeUsers auth.userId u' }
          some { r with sessions := setKey r.sessions roomId s' }
  { redis := redis',
    emissions := [{ target := .toOthers, event := .cursorMoved auth.userId input.position }] }

/-- One iteration of the disconnect loop (lines 980-1024) over the sessions
map: remove the user from the room's session record; if participants remain,
write it back and broadcast `USER_LEFT`, otherwise delete the record. -/
def disconnectStep (userId : String)
    (acc : List (String × SessionMetadata) × List Emission)
    (roomId : String) : List (String × SessionMetadata) × List Emission :=
  match lookupKey acc.1 roomId with
  | none => acc
  | some session =>
    let s' := removeUserFromSession userId session
    if s'.activeUsers.length > 0 then
      (setKey acc.1 roomId s',
        acc.2 ++ [{ target := .toRoom, event := .userLeft userId }])
    else
      (delKey acc.1 roomId, acc.2)

/-- The `disconnect` handler (lines 967-1032): iterate over the rooms in the
user's session set (`smembers` of a missing key is the empty set), apply
`disconnectStep` to each, then delete the user's session set. -/
def handleDisconnect (auth : SocketAuth) (redis : Option RedisState) : PresenceResult :=
  match redis with
  | none => { redis := none, emissions := [] }
  | some r =>
    let rooms := (lookupKey r.userSessions auth.userId).getD []
    let folded := rooms.foldl (disconnectStep auth.userId) (r.sessions, [])
    let r' : RedisState :=
      { sessions := folded.1, userSessions := delKey r.userSessions auth.userId }
    { redis := some r', emissions := folded.2 }

/-! ## The multi-process interleaving of lock acquisition (lines 457-509)

Lock acquisition inside `block:edit` is a plain `redis.get`, an in-memory
check and mutation, then a `redis.set`.  Each handler yields at every await,
so between one process's read and its write another process may run its own
read.  The model below executes two acquisition attempts under the schedule
read1, read2, write1, write2. -/

/-- Outcome of one acquisition attempt: denied with the holder, or the
attempt proceeded to install its lock (the code then continues with the
edit). -/
inductive AcqOutcome
  | denied (heldBy : String)
  | acquired
deriving DecidableEq

/-- Install a lock for `userId` on `blockId` in a session snapshot (the lock
part of lines 482-486). -/
def acqInstall (session : SessionMetadata) (userId blockId : String)
    (now : Int) : SessionMetadata :=
  let lk : Lock := { userId := userId, expires := now + LOCK_TIMEOUT }
  { session with locks := setKey session.locks blockId lk }

/-- Two concurrent acquisition attempts on the same block interleaved as
read1, read2, write1, write2: both reads see the same stored session, each
attempt checks its snapshot and, if not blocked, writes the snapshot with its
own lock back.  Returns both outcomes and the final sessions map. -/
def racyDoubleAcquire (sessions : List (String × SessionMetadata))
    (roomId blockId u1 u2 : String) (now : Int) :
    AcqOutcome × AcqOutcome × List (String × SessionMetadata) :=
  match lookupKey sessions roomId with
  | none => (.acquired, .acquired, sessions)
  | some snap =>
    let (o1, sessions1) :=
      match lockHolderBlocking snap blockId u1 now with
      | some holder => (AcqOutcome.denied holder, sessions)
      | none => (AcqOutcome.acquired, setKey sessions roomId (acqInstall snap u1 blockId now))
    let (o2, sessions2) :=
      match lockHolderBlocking snap blockId u2 now with
      | some holder => (AcqOutcome.denied holder, sessions1)
      | none => (AcqOutcome.acquired, setKey sessions1 roomId (acqInstall snap u2 blockId now))
    (o1, o2, sessions2)

/-! ## Concrete fixtures (used to instantiate theorems on closed inputs) -/

/-- A sample participant. -/
def userA : CollaborationUser :=
  { id := "u1", name := "A", avatarUrl := none, cursor := none, lastActivity := 0 }

/-- A second sample participant. -/
def userB : CollaborationUser :=
  { id := "u2", name := "B", avatarUrl := none, cursor := none, lastActivity := 0 }

/-- A sample lock on block "b1" held by "u1", expiring at t = 40000. -/
def lockA : Lock := { userId := "u1", expires := 40000 }

/-- A sample session with two participants and `lockA` on "b1". -/
def sessionAB : SessionMetadata :=
  { entityType := "sermon", entityId := "d1", lastActivity := 0,
    activeUsers := [("u1", userA), ("u2", userB)], operations := [], locks := [("b1", lockA)] }

/-- A sample session whose only participant is "u1". -/
def sessionSolo : SessionMetadata :=
  { entityType := "sermon", entityId := "d1", lastActivity := 0,
    activeUsers := [("u1", userA)], operations := [], locks := [] }

/-- A Redis state holding `sessionAB`. -/
def redisAB : RedisState :=
  { sessions := [("sermon:d1", sessionAB)],
    userSessions := [("u1", ["sermon:d1"]), ("u2", ["sermon:d1"])] }

/-- A Redis state holding `sessionSolo`. -/
def redisSolo : RedisState :=
  { sessions := [("sermon:d1", sessionSolo)], userSessions := [("u1", ["sermon:d1"])] }

/-- The principal of "u1". -/
def authA : SocketAuth := { userId := "u1", email := "a@example.com" }

/-- The principal of "u2". -/
def authB : SocketAuth := { userId := "u2", email := "b@example.com" }

/-- A sample insert operation. -/
def insertOpG : EditOp := { type := .insert, position := some 0, length := none, text := some "G" }

/-- A sample `block:edit` payload editing "b1" of document "sermon:d1". -/
def editInputB1 : EditInput :=
  { entityType := "sermon", entityId := "d1", blockId := "b1", operation := insertOpG }

/-- The session record a shared-store state holds for a room (`none` both
when the store is unavailable and when the key is absent). -/
def roomSession (redis : Option RedisState) (roomId : String) : Option SessionMetadata :=
  match redis with
  | none => none
  | some r => lookupKey r.sessions roomId

/-- A degenerate insert operation: its position is undefined. -/
def insertOpNoPos : EditOp :=
  { type := .insert, position := none, length := none, text := some "G" }

/-- A `block:edit` payload carrying the degenerate insert. -/
def editInputNoPos : EditInput :=
  { entityType := "sermon", entityId := "d1", blockId := "b1", operation := insertOpNoPos }

/-- The principal of a third user "u3". -/
def authC : SocketAuth := { userId := "u3", email := "c@example.com" }

/-- The profile row of "u3". -/
def profileC : UserProfile := { firstName := "C", lastName := "D", avatarUrl := none }

/-- A one-row user table holding "u3". -/
def usersC : List (String × UserProfile) := [("u3", profileC)]

/-- A `join` payload for document "sermon:d1" without a display name. -/
def joinInputD1 : JoinInput := { entityType := "sermon", entityId := "d1", displayName := none }

/-- A `cursor` payload for document "sermon:d1". -/
def cursorInputD1 : CursorInput :=
  { entityType := "sermon", entityId := "d1", position := { blockId := "b1", position := 3 } }

/-- The `USER_JOINED` emission produced when "u3" joins at time 5. -/
def joinEmissionC : Emission :=
  { target := .toOthers, event := .userJoined (joinCollaborationUser 5 authC profileC none) }

/-- The `CURSOR_MOVED` emission produced when "u3" moves its cursor. -/
def cursorEmissionC : Emission :=
  { target := .toOthers, event := .cursorMoved "u3" { blockId := "b1", position := 3 } }

/-! ## Properties of the association-list operations -/

theorem lookupKey_nil {α : Type} (k : String) : lookupKey ([] : List (String × α)) k = none := rfl

theorem lookupKey_cons {α : Type} (k' k : String) (v : α) (l : List (String × α)) :
    lookupKey ((k', v) :: l) k = if k' = k then some v else lookupKey l k := by
  by_cases h : k' = k
  · subst h
    simp [lookupKey, List.find?]
  · have hb : (k' == k) = false := beq_eq_false_iff_ne.mpr h
    simp [lookupKey, List.find?, hb, h]

theorem setKey_cons {α : Type} (k0 : String) (v0 : α) (rest : List (String × α))
    (k : String) (v : α) :
    setKey ((k0, v0) :: rest) k v
      = if k0 = k then (k, v) :: rest else (k0, v0) :: setKey rest k v := rfl

theorem delKey_cons {α : Type} (k0 : String) (v0 : α) (rest : List (String × α)) (k : String) :
    delKey ((k0, v0) :: rest) k
      = if k0 = k then delKey rest k else (k0, v0) :: delKey rest k := by
  by_cases h : k0 = k <;> simp [delKey, List.filter_cons, h]

theorem lookupKey_setKey_self {α : Type} (l : List (String × α)) (k : String) (v : α) :
    lookupKey (setKey l k v) k = some v := by
  induction l with
  | nil => simp [setKey, lookupKey_cons]
  | cons kv rest ih =>
    cases kv with
    | mk k0 v0 =>
      by_cases h : k0 = k
      · rw [setKey_cons, if_pos h, lookupKey_cons, if_pos rfl]
      · rw [setKey_cons, if_neg h, lookupKey_cons, if_neg h]
        exact ih

theorem lookupKey_setKey_ne {α : Type} (l : List (String × α)) (k k' : String) (v : α)
    (h : k' ≠ k) : lookupKey (setKey l k v) k' = lookupKey l k' := by
  induction l with
  | nil =>
    rw [show setKey ([] : List (String × α)) k v = [(k, v)] from rfl, lookupKey_cons,
      if_neg (fun hh : k = k' => h hh.symm)]
  | cons kv rest ih =>
    cases kv with
    | mk k0 v0 =>
      by_cases hk : k0 = k
      · subst hk
        rw [setKey_cons, if_pos rfl, lookupKey_cons, lookupKey_cons,
          if_neg (fun hh : k0 = k' => h hh.symm), if_neg (fun hh : k0 = k' => h hh.symm)]
      · rw [setKey_cons, if_neg hk, lookupKey_cons, lookupKey_cons]
        by_cases hk' : k0 = k'
        · rw [if_pos hk', if_pos hk']
        · rw [if_neg hk', if_neg hk']
          exact ih

theorem lookupKey_delKey_self {α : Type} (l : List (String × α)) (k : String) :
    lookupKey (delKey l k) k = none := by
  induction l with
  | nil => rfl
  | cons kv rest ih =>
    cases kv with
    | mk k0 v0 =>
      by_cases h : k0 = k
      · rw [delKey_cons, if_pos h]
        exact ih
      · rw [delKey_cons, if_neg h, lookupKey_cons, if_neg h]
        exact ih

theorem lookupKey_delKey_ne {α : Type} (l : List (String × α)) (k k' : String)
    (h : k' ≠ k) : lookupKey (delKey l k) k' = lookupKey l k' := by
  induction l with
  | nil => rfl
  | cons kv rest ih =>
    cases kv with
    | mk k0 v0 =>
      by_cases hk : k0 = k
      · subst hk
        rw [delKey_cons, if_pos rfl, lookupKey_cons,
          if_neg (fun hh : k0 = k' => h hh.symm)]
        exact ih
      · rw [delKey_cons, if_neg hk, lookupKey_cons, lookupKey_cons]
        by_cases hk' : k0 = k'
        · rw [if_pos hk', if_pos hk']
        · rw [if_neg hk', if_neg hk']
          exact ih

/-- If the stored value already equals the written one, `setKey` changes no
lookup (used for the frame property of degenerate edits). -/
theorem lookupKey_setKey_of_eq {α : Type} (l : List (String × α)) (k : String) (v : α)
    (h : lookupKey l k = some v) (b : String) :
    lookupKey (setKey l k v) b = lookupKey l b := by
  by_cases hb : b = k
  · subst hb
    rw [lookupKey_setKey_self, h]
  · exact lookupKey_setKey_ne l k b v hb

/-- `delKey` empties an association list all of whose keys are `k`. -/
theorem delKey_eq_nil {α : Type} (l : List (String × α)) (k : String)
    (h : ∀ kv ∈ l, kv.1 = k) : delKey l k = [] := by
  induction l with
  | nil => rfl
  | cons kv rest ih =>
    cases kv with
    | mk k0 v0 =>
      have hk : k0 = k := h (k0, v0) (by simp)
      rw [delKey_cons, if_pos hk]
      exact ih (fun x hx => h x (by simp [hx]))

/-! ## Properties of the JavaScript splice semantics -/

theorem clampPos_le (p : Int) (c : String) : clampPos p c ≤ c.length := by
  unfold clampPos
  omega

theorem jsSubstring_zero (c : String) (p : Int) :
    jsSubstring c 0 p = String.mk (c.data.take (clampPos p c)) := by
  simp only [jsSubstring, clampPos]
  have h1 : (min (max (0 : Int) 0) ((c.length : Nat) : Int)).toNat = 0 := by omega
  rw [h1]
  generalize (min (max p 0) ((c.length : Nat) : Int)).toNat = i
  simp

theorem jsSubstringFrom_eq (c : String) (p : Int) :
    jsSubstringFrom c p = String.mk (c.data.drop (clampPos p c)) := by
  simp only [jsSubstringFrom, jsSubstring, clampPos]
  have h1 : (min (max ((c.length : Nat) : Int) 0) ((c.length : Nat) : Int)).toNat = c.length := by
    omega
  rw [h1]
  have h2 : (min (max p 0) ((c.length : Nat) : Int)).toNat ≤ c.length := by omega
  generalize hi : (min (max p 0) ((c.length : Nat) : Int)).toNat = i
  rw [hi] at h2
  rw [min_eq_left h2, max_eq_right h2]
  congr 1
  have hlen : c.length = c.data.length := rfl
  apply List.take_of_length_le
  rw [List.length_drop]
  omega

theorem string_length_eq_zero_iff (t : String) : t.length = 0 ↔ t = "" := by
  cases t with
  | mk l =>
    constructor
    · intro h
      have hl : l = [] := List.length_eq_zero.mp h
      subst hl
      rfl
    · intro h
      have hl : l = [] := by
        have := congrArg String.data h
        simpa using this
      subst hl
      rfl

/-- The insert case of the `block:edit` switch computes exactly the splice of
the text at the position clamped into `[0, length]` (out-of-range positions
included). -/
theorem applyEditOp_insert (c : String) (p : Int) (t : String) (len : Option Int) :
    applyEditOp { type := .insert, position := some p, length := len, text := some t } c
      = spliceAt c t (clampPos p c) := by
  by_cases ht : t = ""
  · subst ht
    show c = spliceAt c "" (clampPos p c)
    unfold spliceAt
    rw [show ("" : String).data = [] from rfl, List.append_nil, List.take_append_drop]
  · show (if t = "" then c else jsSubstring c 0 p ++ t ++ jsSubstringFrom c p) = _
    rw [if_neg ht, jsSubstring_zero, jsSubstringFrom_eq]
    rfl

/-- Inserting text of length `m` always grows the content by exactly `m`,
wherever the position falls. -/
theorem applyEditOp_insert_length (c : String) (p : Int) (t : String) (len : Option Int) :
    (applyEditOp { type := .insert, position := some p, length := len, text := some t } c).length
      = c.length + t.length := by
  rw [applyEditOp_insert]
  show (c.data.take (clampPos p c) ++ t.data ++ c.data.drop (clampPos p c)).length
    = c.length + t.length
  rw [List.length_append, List.length_append, List.length_take, List.length_drop]
  have h := clampPos_le p c
  have hl : c.length = c.data.length := rfl
  have ht : t.length = t.data.length := rfl
  omega

/-! ## Claim theorems -/

/-- C3: for every block content string `C` and insert operation
`{position, text}`, applying the insert produces the splice of `text` into
`C` at `position`, with an out-of-range position (negative or greater than
the length of `C`) clamped into range rather than rejected; the computation
is total, so no input position yields an error. -/
theorem insert_is_clamped_splice (c : String) (p : Int) (t : String) (len : Option Int) :
    applyEditOp { type := .insert, position := some p, length := len, text := some t } c
      = spliceAt c t (clampPos p c) :=
  applyEditOp_insert c p t len

/-- C6 counterexample: the claim quantifies over every insert operation, but
an insert whose `text` is the empty string (falsy in the source's truthiness
guard) is a no-op, so applying it twice equals applying it once. -/
theorem insert_idempotent_on_empty_text :
    applyEditOp { type := .insert, position := some 0, length := none, text := some "" }
        (applyEditOp { type := .insert, position := some 0, length := none, text := some "" } "abc")
      = applyEditOp { type := .insert, position := some 0, length := none, text := some "" } "abc" := by
  decide

/-- C6 (amended): for every content string and every insert operation with a
defined position and nonempty text, applying the same insert twice yields
content different from applying it once. -/
theorem insert_not_idempotent (c : String) (op : EditOp) (p : Int) (t : String)
    (hty : op.type = .insert) (hp : op.position = some p) (ht : op.text = some t)
    (hne : t ≠ "") :
    applyEditOp op (applyEditOp op c) ≠ applyEditOp op c := by
  have hop : op = { type := .insert, position := some p, length := op.length, text := some t } := by
    cases op
    simp_all
  rw [hop]
  intro heq
  have hlen := congrArg String.length heq
  rw [applyEditOp_insert_length, applyEditOp_insert_length] at hlen
  have htz : t.length = 0 := by omega
  exact hne (string_length_eq_zero_iff t |>.mp htz)

/-- C6 witness: the amended statement instantiated at content "abc" and the
insert of "XY" at position 1. -/
theorem insert_not_idempotent_witness :
    ({ type := .insert, position := some 1, length := none, text := some "XY" } : EditOp).type
        = OpType.insert ∧
    applyEditOp { type := .insert, position := some 1, length := none, text := some "XY" }
        (applyEditOp { type := .insert, position := some 1, length := none, text := some "XY" } "abc")
      ≠ applyEditOp { type := .insert, position := some 1, length := none, text := some "XY" } "abc" :=
  ⟨rfl, insert_not_idempotent "abc" _ 1 "XY" rfl rfl rfl (by decide)⟩

/-! ## Lock behaviour of the block:edit handler -/

/-- When a session record exists, installing the edit lock yields a state
whose session record for the room carries the caller's fresh lock. -/
theorem installEditLock_some_session (now : Int) (userId : String) (r : RedisState)
    (roomId blockId : String) (op : EditOp) (session : SessionMetadata)
    (hq : lookupKey r.sessions roomId = some session) :
    ∃ r1, installEditLock now userId (some r) roomId blockId op = some r1 ∧
      ∃ s1, lookupKey r1.sessions roomId = some s1 ∧
        lookupKey s1.locks blockId = some { userId := userId, expires := now + LOCK_TIMEOUT } := by
  simp only [installEditLock, hq]
  exact ⟨_, rfl, _, lookupKey_setKey_self _ _ _, lookupKey_setKey_self _ _ _⟩

/-- Releasing a lock the caller holds deletes it: the resulting state's
session record for the room has no lock entry for the block. -/
theorem releaseLockIfHeld_removes (userId : String) (r1 : RedisState)
    (roomId blockId : String) (s1 : SessionMetadata) (lk : Lock)
    (hs1 : lookupKey r1.sessions roomId = some s1)
    (hlk : lookupKey s1.locks blockId = some lk)
    (huid : lk.userId = userId) :
    ∃ r2, releaseLockIfHeld userId (some r1) roomId blockId = some r2 ∧
      ∀ s', lookupKey r2.sessions roomId = some s' → lookupKey s'.locks blockId = none := by
  have hstep : releaseLockIfHeld userId (some r1) roomId blockId = some { r1 with sessions := setKey r1.sessions roomId { s1 with locks := delKey s1.locks blockId } } := by
    simp [releaseLockIfHeld, hs1, hlk, huid]
  rw [hstep]
  refine ⟨_, rfl, ?_⟩
  intro s' h
  have h' : lookupKey (setKey r1.sessions roomId
      { s1 with locks := delKey s1.locks blockId }) roomId = some s' := h
  rw [lookupKey_setKey_self] at h'
  obtain rfl := Option.some.inj h'
  exact lookupKey_delKey_self _ _

/-- After the optimistic install of the caller's lock, the catch branch's
release leaves no lock on the block: whatever session record the room maps to
afterwards, its locks no longer contain an entry for `blockId`. -/
theorem release_install_lockfree (now : Int) (userId : String) (redis : Option RedisState)
    (roomId blockId : String) (op : EditOp) (r' : RedisState) (s' : SessionMetadata)
    (h1 : releaseLockIfHeld userId (installEditLock now userId redis roomId blockId op)
      roomId blockId = some r')
    (h2 : lookupKey r'.sessions roomId = some s') :
    lookupKey s'.locks blockId = none := by
  cases redis with
  | none =>
    have : (none : Option RedisState) = some r' := h1
    exact absurd this (by simp)
  | some r =>
    cases hq : lookupKey r.sessions roomId with
    | none =>
      have hinst : installEditLock now userId (some r) roomId blockId op = some r := by
        simp [installEditLock, hq]
      rw [hinst] at h1
      have hrel : releaseLockIfHeld userId (some r) roomId blockId = some r := by
        simp [releaseLockIfHeld, hq]
      rw [hrel] at h1
      obtain rfl := Option.some.inj h1
      rw [hq] at h2
      exact absurd h2 (by simp)
    | some session =>
      obtain ⟨r1, hr1, s1, hs1, hlk1⟩ :=
        installEditLock_some_session now userId r roomId blockId op session hq
      rw [hr1] at h1
      obtain ⟨r2, hr2, hprop⟩ :=
        releaseLockIfHeld_removes userId r1 roomId blockId s1 _ hs1 hlk1 rfl
      rw [hr2] at h1
      obtain rfl := Option.some.inj h1
      exact hprop s' h2

/-! ## C1: lock exclusivity -/

/-- C1: if a session record exists for the room and another principal holds a
lock on the block whose expiry is still in the future, a `block:edit` request
emits exactly the `BLOCK_LOCKED` error to the caller, naming the holder, and
leaves every block's content unchanged. -/
theorem lock_exclusivity (now : Int) (auth : SocketAuth) (r : RedisState)
    (blocks : List (String × String)) (versions : List BlockVersion) (updateThrows : Bool)
    (input : EditInput) (s : SessionMetadata) (lk : Lock)
    (hs : lookupKey r.sessions (roomIdOf input.entityType input.entityId) = some s)
    (hl : lookupKey s.locks input.blockId = some lk)
    (hne : lk.userId ≠ auth.userId)
    (hfresh : now < lk.expires) :
    (handleBlockEdit now auth (some r) blocks versions updateThrows input).emissions
      = [{ target := .toSelf, event := .errorBlockLocked input.blockId lk.userId }] ∧
    (handleBlockEdit now auth (some r) blocks versions updateThrows input).blocks = blocks := by
  have hb : blockedHolder (some r) (roomIdOf input.entityType input.entityId) input.blockId
      auth.userId now = some lk.userId := by
    simp only [blockedHolder, hs, lockHolderBlocking, hl]
    rw [if_pos ⟨hne, hfresh⟩]
  simp only [handleBlockEdit, hb]
  exact ⟨trivial, trivial⟩

/-- C1 witness: at time 1000 user "u2" edits block "b1" locked by "u1" until
40000, and receives `BLOCK_LOCKED` naming "u1" with the block table
untouched. -/
theorem lock_exclusivity_witness :
    lookupKey redisAB.sessions (roomIdOf "sermon" "d1") = some sessionAB ∧
    (handleBlockEdit 1000 authB (some redisAB) [("b1", "hi")] [] false editInputB1).emissions
      = [{ target := .toSelf, event := .errorBlockLocked "b1" "u1" }] ∧
    (handleBlockEdit 1000 authB (some redisAB) [("b1", "hi")] [] false editInputB1).blocks
      = [("b1", "hi")] := by
  refine ⟨by decide, ?_, ?_⟩
  · exact (lock_exclusivity 1000 authB redisAB [("b1", "hi")] [] false editInputB1
      sessionAB lockA (by decide) (by decide) (by decide) (by decide)).1
  · exact (lock_exclusivity 1000 authB redisAB [("b1", "hi")] [] false editInputB1
      sessionAB lockA (by decide) (by decide) (by decide) (by decide)).2

/-! ## C2: persistence failure -/

/-- C2: when the caller is not blocked by a foreign lock but persisting the
edit fails (the block is missing from the store, or the update throws), the
handler emits exactly one `EDIT_ERROR` to the originating connection (so no
collaboration broadcast occurs), leaves the block table unchanged, and the
lock optimistically installed for the attempt is released: the session record
the room maps to afterwards holds no lock on the block. -/
theorem persistence_failure_releases_lock (now : Int) (auth : SocketAuth)
    (redis : Option RedisState) (blocks : List (String × String)) (versions : List BlockVersion)
    (updateThrows : Bool) (input : EditInput)
    (hnb : blockedHolder redis (roomIdOf input.entityType input.entityId) input.blockId
      auth.userId now = none)
    (hfail : lookupKey blocks input.blockId = none ∨ updateThrows = true) :
    (handleBlockEdit now auth redis blocks versions updateThrows input).emissions
      = [{ target := .toSelf, event := .errorEditFailed input.blockId }] ∧
    (handleBlockEdit now auth redis blocks versions updateThrows input).blocks = blocks ∧
    (∀ r' s', (handleBlockEdit now auth redis blocks versions updateThrows input).redis = some r' →
       lookupKey r'.sessions (roomIdOf input.entityType input.entityId) = some s' →
       lookupKey s'.locks input.blockId = none) := by
  simp only [handleBlockEdit, hnb]
  rcases hfail with hnone | hthrows
  · rw [hnone]
    refine ⟨by trivial, by trivial, ?_⟩
    intro r' s' h1 h2
    exact release_install_lockfree now auth.userId redis _ input.blockId input.operation r' s' h1 h2
  · subst hthrows
    cases hc : lookupKey blocks input.blockId with
    | none =>
      refine ⟨by trivial, by trivial, ?_⟩
      intro r' s' h1 h2
      exact release_install_lockfree now auth.userId redis _ input.blockId input.operation r' s' h1 h2
    | some content =>
      refine ⟨by trivial, by trivial, ?_⟩
      intro r' s' h1 h2
      exact release_install_lockfree now auth.userId redis _ input.blockId input.operation r' s' h1 h2

/-- C2 witness: at time 40000 (the lock of `redisAB` on "b1" has expired, so
"u2" is not blocked), the update throws; exactly one `EDIT_ERROR` goes to the
caller, blocks are unchanged, and the re-read session holds no lock on
"b1". -/
theorem persistence_failure_releases_lock_witness :
    blockedHolder (some redisAB) (roomIdOf "sermon" "d1") "b1" "u2" 40000 = none ∧
    (handleBlockEdit 40000 authB (some redisAB) [("b1", "hi")] [] true editInputB1).emissions
      = [{ target := .toSelf, event := .errorEditFailed "b1" }] := by
  refine ⟨by decide, ?_⟩
  exact (persistence_failure_releases_lock 40000 authB (some redisAB) [("b1", "hi")] []
    true editInputB1 (by decide) (Or.inr rfl)).1

/-! ## C5: lock expiry -/

/-- C5: a lock acquired at time `T` carries expiry `T + LOCK_TIMEOUT`; at any
time `now ≥ T + LOCK_TIMEOUT` the lock-held check treats it as absent, a
different participant's acquisition succeeds (the lock is reinstalled for the
new caller with expiry `now + LOCK_TIMEOUT`), and no `BLOCK_LOCKED` error is
emitted by the edit. -/
theorem lock_expiry (T now : Int) (auth : SocketAuth) (r : RedisState)
    (blocks : List (String × String)) (versions : List BlockVersion) (updateThrows : Bool)
    (input : EditInput) (s : SessionMetadata) (holder : String)
    (hs : lookupKey r.sessions (roomIdOf input.entityType input.entityId) = some s)
    (hl : lookupKey s.locks input.blockId = some { userId := holder, expires := T + LOCK_TIMEOUT })
    (hne : holder ≠ auth.userId)
    (hT : T + LOCK_TIMEOUT ≤ now) :
    lockHolderBlocking s input.blockId auth.userId now = none ∧
    (∃ r' s', installEditLock now auth.userId (some r)
        (roomIdOf input.entityType input.entityId) input.blockId input.operation = some r' ∧
      lookupKey r'.sessions (roomIdOf input.entityType input.entityId) = some s' ∧
      lookupKey s'.locks input.blockId
        = some { userId := auth.userId, expires := now + LOCK_TIMEOUT }) ∧
    (∀ e ∈ (handleBlockEdit now auth (some r) blocks versions updateThrows input).emissions,
       isBlockLockedError e.event = false) := by
  have hcheck : lockHolderBlocking s input.blockId auth.userId now = none := by
    simp only [lockHolderBlocking, hl]
    rw [if_neg]
    rintro ⟨-, h2⟩
    omega
  have hb : blockedHolder (some r) (roomIdOf input.entityType input.entityId) input.blockId
      auth.userId now = none := by
    simp only [blockedHolder, hs]
    exact hcheck
  refine ⟨hcheck, ?_, ?_⟩
  · simp only [installEditLock, hs]
    exact ⟨_, _, rfl, lookupKey_setKey_self _ _ _, lookupKey_setKey_self _ _ _⟩
  · simp only [handleBlockEdit, hb]
    cases hc : lookupKey blocks input.blockId with
    | none =>
      show ∀ e ∈ [({ target := EmitTarget.toSelf, event := OutEvent.errorEditFailed input.blockId } : Emission)], isBlockLockedError e.event = false
      intro e he
      rw [List.mem_singleton] at he
      subst he
      rfl
    | some content =>
      cases updateThrows with
      | true =>
        show ∀ e ∈ [({ target := EmitTarget.toSelf, event := OutEvent.errorEditFailed input.blockId } : Emission)], isBlockLockedError e.event = false
        intro e he
        rw [List.mem_singleton] at he
        subst he
        rfl
      | false =>
        show ∀ e ∈ [({ target := EmitTarget.toRoom, event := OutEvent.blockUpdated input.blockId (applyEditOp input.operation content) } : Emission)], isBlockLockedError e.event = false
        intro e he
        rw [List.mem_singleton] at he
        subst he
        rfl

/-- C5 witness: the lock of `redisAB` on "b1" was acquired at T = 10000
(expiry 40000); at time 40000 the check ignores it, "u2" reacquires the lock,
and the edit emits no `BLOCK_LOCKED`. -/
theorem lock_expiry_witness :
    lookupKey sessionAB.locks "b1" = some { userId := "u1", expires := 10000 + LOCK_TIMEOUT } ∧
    lockHolderBlocking sessionAB "b1" "u2" 40000 = none := by
  refine ⟨by decide, ?_⟩
  exact (lock_expiry 10000 40000 authB redisAB [("b1", "hi")] [] false editInputB1
    sessionAB "u1" (by decide) (by decide) (by decide) (by decide)).1

/-! ## C9: no Redis, no locking -/

/-- C9: with a null Redis client the `block:edit` handler performs no lock
check and installs no lock (the resulting shared state is still `none`),
never emits `BLOCK_LOCKED`, and when the block exists and the update does not
throw the edit is applied directly to the document store, with a version row
appended. -/
theorem no_redis_no_locking (now : Int) (auth : SocketAuth)
    (blocks : List (String × String)) (versions : List BlockVersion)
    (updateThrows : Bool) (input : EditInput) :
    (handleBlockEdit now auth none blocks versions updateThrows input).redis = none ∧
    (∀ e ∈ (handleBlockEdit now auth none blocks versions updateThrows input).emissions,
       isBlockLockedError e.event = false) ∧
    (∀ content, lookupKey blocks input.blockId = some content → updateThrows = false →
       (handleBlockEdit now auth none blocks versions updateThrows input).blocks
         = setKey blocks input.blockId (applyEditOp input.operation content) ∧
       (handleBlockEdit now auth none blocks versions updateThrows input).versions
         = versions ++ [{ blockId := input.blockId, content := applyEditOp input.operation content, createdById := auth.userId }]) := by
  have hb : blockedHolder none (roomIdOf input.entityType input.entityId) input.blockId
      auth.userId now = none := rfl
  simp only [handleBlockEdit, hb]
  cases hc : lookupKey blocks input.blockId with
  | none =>
    refine ⟨by trivial, ?_, ?_⟩
    · show ∀ e ∈ [({ target := EmitTarget.toSelf, event := OutEvent.errorEditFailed input.blockId } : Emission)], isBlockLockedError e.event = false
      intro e he
      rw [List.mem_singleton] at he
      subst he
      rfl
    · intro content hcontent
      exact absurd hcontent (by simp)
  | some content =>
    cases updateThrows with
    | true =>
      refine ⟨by trivial, ?_, ?_⟩
      · show ∀ e ∈ [({ target := EmitTarget.toSelf, event := OutEvent.errorEditFailed input.blockId } : Emission)], isBlockLockedError e.event = false
        intro e he
        rw [List.mem_singleton] at he
        subst he
        rfl
      · intro content' hcontent hfalse
        exact absurd hfalse (by simp)
    | false =>
      refine ⟨by trivial, ?_, ?_⟩
      · show ∀ e ∈ [({ target := EmitTarget.toRoom, event := OutEvent.blockUpdated input.blockId (applyEditOp input.operation content) } : Emission)], isBlockLockedError e.event = false
        intro e he
        rw [List.mem_singleton] at he
        subst he
        rfl
      · intro content' hcontent hfa
        obtain rfl := Option.some.inj hcontent
        exact ⟨by trivial, by trivial⟩

/-- C9 witness: with no Redis, "u2" edits the existing block "b1" containing
"hi"; the insert is applied directly and no state is kept. -/
theorem no_redis_no_locking_witness :
    lookupKey [("b1", "hi")] "b1" = some "hi" ∧
    (handleBlockEdit 1000 authB none [("b1", "hi")] [] false editInputB1).blocks
      = setKey [("b1", "hi")] "b1" (applyEditOp insertOpG "hi") := by
  refine ⟨by decide, ?_⟩
  exact ((no_redis_no_locking 1000 authB [("b1", "hi")] [] false editInputB1).2.2
    "hi" (by decide) rfl).1

/-! ## C10: degenerate operations are no-ops -/

/-- C10: an edit operation whose required fields are missing or falsy — an
insert with no position or with missing/empty text, a delete with no position
or with missing/zero length, a replace with missing text — computes content
identical to the loaded content, and a `block:edit` carrying it leaves every
block's stored content exactly as it was. -/
theorem degenerate_edit_preserves_content (c : String) (op : EditOp)
    (h : (op.type = .insert ∧ (op.position = none ∨ op.text = none ∨ op.text = some "")) ∨
         (op.type = .delete ∧ (op.position = none ∨ op.length = none ∨ op.length = some 0)) ∨
         (op.type = .replace ∧ op.text = none)) :
    applyEditOp op c = c ∧
    (∀ now auth redis versions updateThrows (blocks : List (String × String)) (input : EditInput),
      input.operation = op → lookupKey blocks input.blockId = some c →
      ∀ b, lookupKey (handleBlockEdit now auth redis blocks versions updateThrows input).blocks b
        = lookupKey blocks b) := by
  have hnoop : applyEditOp op c = c := by
    rcases h with ⟨hty, h1 | h1 | h1⟩ | ⟨hty, h1 | h1 | h1⟩ | ⟨hty, h1⟩
    · simp [applyEditOp, hty, h1]
    · cases hp : op.position <;> simp [applyEditOp, hty, h1, hp]
    · cases hp : op.position <;> simp [applyEditOp, hty, h1, hp]
    · simp [applyEditOp, hty, h1]
    · cases hp : op.position <;> simp [applyEditOp, hty, h1, hp]
    · cases hp : op.position <;> simp [applyEditOp, hty, h1, hp]
    · simp [applyEditOp, hty, h1]
  refine ⟨hnoop, ?_⟩
  intro now auth redis versions updateThrows blocks input hop hc b
  simp only [handleBlockEdit]
  cases blockedHolder redis (roomIdOf input.entityType input.entityId) input.blockId
      auth.userId now with
  | some heldBy => rfl
  | none =>
    rw [hc]
    cases updateThrows with
    | true => rfl
    | false =>
      show lookupKey (setKey blocks input.blockId (applyEditOp input.operation c)) b
        = lookupKey blocks b
      rw [hop, hnoop]
      exact lookupKey_setKey_of_eq blocks input.blockId c hc b

/-- C10 witness: an insert with an undefined position on block "b1" leaves
the stored content "hi" unchanged. -/
theorem degenerate_edit_preserves_content_witness :
    applyEditOp insertOpNoPos "hi" = "hi" ∧
    lookupKey (handleBlockEdit 1000 authB none [("b1", "hi")] [] false editInputNoPos).blocks "b1"
      = lookupKey [("b1", "hi")] "b1" := by
  have h := degenerate_edit_preserves_content "hi" insertOpNoPos (Or.inl ⟨rfl, Or.inl rfl⟩)
  exact ⟨h.1, h.2 1000 authB none [] false [("b1", "hi")] editInputNoPos rfl (by decide) "b1"⟩

/-! ## C4: session emptiness -/

theorem disconnectStep_eq_of_none (userId : String)
    (acc : List (String × SessionMetadata) × List Emission) (roomId : String)
    (hq : lookupKey acc.1 roomId = none) :
    disconnectStep userId acc roomId = acc := by
  unfold disconnectStep
  rw [hq]

theorem disconnectStep_eq_of_some_pos (userId : String)
    (acc : List (String × SessionMetadata) × List Emission) (roomId : String)
    (session : SessionMetadata)
    (hq : lookupKey acc.1 roomId = some session)
    (hlen : (removeUserFromSession userId session).activeUsers.length > 0) :
    disconnectStep userId acc roomId
      = (setKey acc.1 roomId (removeUserFromSession userId session),
         acc.2 ++ [{ target := .toRoom, event := .userLeft userId }]) := by
  unfold disconnectStep
  rw [hq]
  simp only [if_pos hlen]

theorem disconnectStep_eq_of_some_zero (userId : String)
    (acc : List (String × SessionMetadata) × List Emission) (roomId : String)
    (session : SessionMetadata)
    (hq : lookupKey acc.1 roomId = some session)
    (hlen : ¬ (removeUserFromSession userId session).activeUsers.length > 0) :
    disconnectStep userId acc roomId = (delKey acc.1 roomId, acc.2) := by
  unfold disconnectStep
  rw [hq]
  simp only [if_neg hlen]

/-- A disconnect iteration for one room does not touch the session record of
a different room. -/
theorem disconnectStep_lookup_other (userId : String)
    (acc : List (String × SessionMetadata) × List Emission) (room roomId : String)
    (h : room ≠ roomId) :
    lookupKey (disconnectStep userId acc room).1 roomId = lookupKey acc.1 roomId := by
  cases hq : lookupKey acc.1 room with
  | none => rw [disconnectStep_eq_of_none userId acc room hq]
  | some session =>
    by_cases hlen : (removeUserFromSession userId session).activeUsers.length > 0
    · rw [disconnectStep_eq_of_some_pos userId acc room session hq hlen]
      exact lookupKey_setKey_ne _ _ _ _ (fun hh => h hh.symm)
    · rw [disconnectStep_eq_of_some_zero userId acc room session hq hlen]
      exact lookupKey_delKey_ne _ _ _ (fun hh => h hh.symm)

/-- Once a room's session record is gone, the rest of the disconnect loop
never resurrects it. -/
theorem foldl_disconnect_none (userId roomId : String) :
    ∀ (rooms : List String) (acc : List (String × SessionMetadata) × List Emission),
      lookupKey acc.1 roomId = none →
      lookupKey (rooms.foldl (disconnectStep userId) acc).1 roomId = none := by
  intro rooms
  induction rooms with
  | nil => intro acc h; exact h
  | cons room rest ih =>
    intro acc h
    rw [List.foldl_cons]
    apply ih
    by_cases he : room = roomId
    · subst he
      rw [disconnectStep_eq_of_none userId acc room h]
      exact h
    · rw [disconnectStep_lookup_other userId acc room roomId he]
      exact h

/-- The disconnect loop deletes the record of every room in the list whose
participants would all be removed with the disconnecting user. -/
theorem foldl_disconnect_deletes (userId roomId : String) :
    ∀ (rooms : List String) (acc : List (String × SessionMetadata) × List Emission),
      roomId ∈ rooms →
      (lookupKey acc.1 roomId = none ∨
        ∃ s, lookupKey acc.1 roomId = some s ∧ ∀ kv ∈ s.activeUsers, kv.1 = userId) →
      lookupKey (rooms.foldl (disconnectStep userId) acc).1 roomId = none := by
  intro rooms
  induction rooms with
  | nil => intro acc hmem; exact absurd hmem (List.not_mem_nil roomId)
  | cons room rest ih =>
    intro acc hmem hprop
    rw [List.foldl_cons]
    by_cases he : room = roomId
    · subst he
      have hnone : lookupKey (disconnectStep userId acc room).1 room = none := by
        rcases hprop with h | ⟨s, hs, hall⟩
        · rw [disconnectStep_eq_of_none userId acc room h]
          exact h
        · have hdel : delKey s.activeUsers userId = [] := delKey_eq_nil _ _ hall
          have hlen : ¬ (removeUserFromSession userId s).activeUsers.length > 0 := by
            show ¬ (delKey s.activeUsers userId).length > 0
            rw [hdel]
            simp
          rw [disconnectStep_eq_of_some_zero userId acc room s hs hlen]
          exact lookupKey_delKey_self _ _
      exact foldl_disconnect_none userId room rest _ hnone
    · have hpres := disconnectStep_lookup_other userId acc room roomId he
      apply ih
      · rcases List.mem_cons.mp hmem with h | h
        · exact absurd h.symm he
        · exact h
      · rcases hprop with h | ⟨s, hs, hall⟩
        · exact Or.inl (by rw [hpres]; exact h)
        · exact Or.inr ⟨s, by rw [hpres]; exact hs, hall⟩

/-- C4: when the disconnecting or leaving user is the last participant of a
session (every participant entry belongs to that user), the session record is
deleted from the store, by the `leave` handler as well as by the `disconnect`
handler (for any room listed in the user's session set). -/
theorem session_emptiness (auth : SocketAuth) (r : RedisState) (input : ChannelInput)
    (s : SessionMetadata)
    (hs : lookupKey r.sessions (roomIdOf input.entityType input.entityId) = some s)
    (hlast : ∀ kv ∈ s.activeUsers, kv.1 = auth.userId) :
    roomSession (handleLeave auth (some r) input).redis
        (roomIdOf input.entityType input.entityId) = none ∧
    (roomIdOf input.entityType input.entityId
        ∈ (lookupKey r.userSessions auth.userId).getD [] →
      roomSession (handleDisconnect auth (some r)).redis
        (roomIdOf input.entityType input.entityId) = none) := by
  have hdel : delKey s.activeUsers auth.userId = [] := delKey_eq_nil _ _ hlast
  constructor
  · have hlen : ¬ (removeUserFromSession auth.userId s).activeUsers.length > 0 := by
      show ¬ (delKey s.activeUsers auth.userId).length > 0
      rw [hdel]
      simp
    simp only [handleLeave, hs, if_neg hlen]
    show lookupKey (delKey r.sessions (roomIdOf input.entityType input.entityId))
      (roomIdOf input.entityType input.entityId) = none
    exact lookupKey_delKey_self _ _
  · intro hmem
    simp only [handleDisconnect]
    show lookupKey (((lookupKey r.userSessions auth.userId).getD []).foldl
      (disconnectStep auth.userId) (r.sessions, [])).1
      (roomIdOf input.entityType input.entityId) = none
    exact foldl_disconnect_deletes auth.userId _ _ _ hmem (Or.inr ⟨s, hs, hlast⟩)

/-- C4 witness: "u1" is the only participant of `redisSolo`; after its leave,
and likewise after its disconnect, the record for "sermon:d1" is gone. -/
theorem session_emptiness_witness :
    (∀ kv ∈ sessionSolo.activeUsers, kv.1 = authA.userId) ∧
    roomSession (handleLeave authA (some redisSolo)
        { entityType := "sermon", entityId := "d1" }).redis (roomIdOf "sermon" "d1") = none ∧
    roomSession (handleDisconnect authA (some redisSolo)).redis (roomIdOf "sermon" "d1") = none := by
  have h := session_emptiness authA redisSolo { entityType := "sermon", entityId := "d1" }
    sessionSolo (by decide) (by decide)
  exact ⟨by decide, h.1, h.2 (by decide)⟩

/-! ## C7: broadcast exclusion -/

/-- Every snapshot emission goes to the joiner only and is neither a
`USER_JOINED` nor a `CURSOR_MOVED` broadcast. -/
theorem joinSnapshotEmissions_toSelf (redis' : Option RedisState) (roomId : String)
    (cu : CollaborationUser) :
    ∀ e ∈ joinSnapshotEmissions redis' roomId cu,
      e.target = EmitTarget.toSelf ∧ isUserJoined e.event = false := by
  cases redis' with
  | none =>
    intro e he
    have he' := List.mem_singleton.mp he
    subst he'
    exact ⟨rfl, rfl⟩
  | some r' =>
    simp only [joinSnapshotEmissions]
    cases hq : lookupKey r'.sessions roomId with
    | none =>
      intro e he
      exact absurd he (List.not_mem_nil e)
    | some s =>
      intro e he
      have he' := List.mem_singleton.mp he
      subst he'
      exact ⟨rfl, rfl⟩

/-- C7: every `USER_JOINED` emission of the join handler and every
`CURSOR_MOVED` emission of the cursor handler is targeted at the room
excluding the originator, and a so-targeted emission is delivered to exactly
the room members other than the originator — never back to the originating
connection. -/
theorem broadcast_exclusion (now : Int) (auth : SocketAuth) (hasAccess : Bool)
    (users : List (String × UserProfile)) (redis : Option RedisState)
    (jin : JoinInput) (cin : CursorInput) :
    (∀ e ∈ (handleJoin now auth hasAccess users redis jin).emissions,
       isUserJoined e.event = true → e.target = EmitTarget.toOthers) ∧
    (∀ e ∈ (handleCursor now auth redis cin).emissions,
       isCursorMoved e.event = true → e.target = EmitTarget.toOthers) ∧
    (∀ (members : List String) (m : String) (e : Emission), e.target = EmitTarget.toOthers →
       (deliveredTo auth.userId members m e ↔ m ∈ members ∧ m ≠ auth.userId)) := by
  refine ⟨?_, ?_, ?_⟩
  · cases hasAccess with
    | false =>
      intro e he hj
      have he' : e = { target := EmitTarget.toSelf, event := OutEvent.errorPermissionDenied } :=
        List.mem_singleton.mp he
      subst he'
      exact absurd hj (by simp [isUserJoined])
    | true =>
      simp only [handleJoin]
      cases hu : lookupKey users auth.userId with
      | none =>
        intro e he hj
        have he' : e = { target := EmitTarget.toSelf, event := OutEvent.errorUserNotFound } :=
          List.mem_singleton.mp he
        subst he'
        exact absurd hj (by simp [isUserJoined])
      | some u =>
        intro e he hj
        have he2 := List.mem_cons.mp he
        rcases he2 with rfl | he3
        · rfl
        · have := (joinSnapshotEmissions_toSelf _ _ _ e he3).2
          rw [hj] at this
          exact absurd this (by simp)
  · intro e he hc
    have he' : e = { target := EmitTarget.toOthers, event := OutEvent.cursorMoved auth.userId cin.position } := List.mem_singleton.mp he
    subst he'
    rfl
  · intro members m e htgt
    simp only [deliveredTo, htgt]

/-- C7 witness: "u3" joins "sermon:d1"; its `USER_JOINED` emission targets
the others, and is delivered to the other member "u1" but not back to
"u3". -/
theorem broadcast_exclusion_witness :
    (joinEmissionC ∈ (handleJoin 5 authC true usersC (some redisAB) joinInputD1).emissions ∧
      isUserJoined joinEmissionC.event = true) ∧
    joinEmissionC.target = EmitTarget.toOthers ∧
    (deliveredTo "u3" ["u1", "u3"] "u1" joinEmissionC ↔ ("u1" ∈ ["u1", "u3"] ∧ "u1" ≠ "u3")) := by
  have h := broadcast_exclusion 5 authC true usersC (some redisAB) joinInputD1 cursorInputD1
  refine ⟨⟨by decide, by decide⟩, ?_, ?_⟩
  · exact h.1 joinEmissionC (by decide) (by decide)
  · exact h.2.2 ["u1", "u3"] "u1" joinEmissionC (by decide)

/-! ## C8: non-atomic lock acquisition -/

/-- C8 counterexample: lock acquisition is a plain `redis.get`, in-memory
check and mutate, then `redis.set`; under the interleaving read1, read2,
write1, write2 two concurrent acquisition attempts by the distinct
principals "u1" and "u2" on the unlocked block "b2" BOTH succeed, refuting
that the acquisition is an atomic read-modify-write under which two
concurrent attempts never both succeed. -/
theorem atomic_acquisition_counterexample :
    (racyDoubleAcquire [("sermon:d1", sessionAB)] "sermon:d1" "b2" "u1" "u2" 1000).1
      = AcqOutcome.acquired ∧
    (racyDoubleAcquire [("sermon:d1", sessionAB)] "sermon:d1" "b2" "u1" "u2" 1000).2.1
      = AcqOutcome.acquired ∧
    "u1" ≠ "u2" := by
  exact ⟨by decide, by decide, by decide⟩

/-- C8 (amended): lock acquisition inside `block:edit` is a non-atomic read,
check, mutate and write-back; for every session record and every block not
validly locked for either caller, the interleaving read1, read2, write1,
write2 of two concurrent acquisition attempts by distinct principals makes
both succeed, and the second write silently overwrites the first holder's
lock. -/
theorem racy_double_acquire_both_succeed (sessions : List (String × SessionMetadata))
    (roomId blockId u1 u2 : String) (now : Int) (s : SessionMetadata)
    (hs : lookupKey sessions roomId = some s)
    (h1 : lockHolderBlocking s blockId u1 now = none)
    (h2 : lockHolderBlocking s blockId u2 now = none)
    (hne : u1 ≠ u2) :
    (racyDoubleAcquire sessions roomId blockId u1 u2 now).1 = AcqOutcome.acquired ∧
    (racyDoubleAcquire sessions roomId blockId u1 u2 now).2.1 = AcqOutcome.acquired ∧
    (∃ s', lookupKey (racyDoubleAcquire sessions roomId blockId u1 u2 now).2.2 roomId = some s' ∧
      lookupKey s'.locks blockId = some { userId := u2, expires := now + LOCK_TIMEOUT }) := by
  simp only [racyDoubleAcquire, hs, h1, h2]
  refine ⟨by trivial, by trivial, ?_⟩
  refine ⟨acqInstall s u2 blockId now, ?_, ?_⟩
  · exact lookupKey_setKey_self _ _ _
  · show lookupKey (setKey s.locks blockId { userId := u2, expires := now + LOCK_TIMEOUT })
      blockId = some { userId := u2, expires := now + LOCK_TIMEOUT }
    exact lookupKey_setKey_self _ _ _

/-- C8 witness for the amended statement: the concrete two-attempt race on
the unlocked block "b2" of `sessionAB`. -/
theorem racy_double_acquire_both_succeed_witness :
    (lookupKey [("sermon:d1", sessionAB)] "sermon:d1" = some sessionAB ∧
      lockHolderBlocking sessionAB "b2" "u1" 1000 = none) ∧
    (racyDoubleAcquire [("sermon:d1", sessionAB)] "sermon:d1" "b2" "u1" "u2" 1000).2.1
      = AcqOutcome.acquired := by
  refine ⟨⟨by decide, by decide⟩, ?_⟩
  exact (racy_double_acquire_both_succeed [("sermon:d1", sessionAB)] "sermon:d1" "b2"
    "u1" "u2" 1000 sessionAB (by decide) (by decide) (by decide) (by decide)).2.1

end Collab
